import Mathlib

/-
Shallow embedding of the Car-Shop backend (src/index.js): a JSON value
model, documents as association lists, the two MongoDB collections
(cars, bookings) as lists of documents, and each Express route handler
as a pure function from database state and request data to a response
and a new database state.  Machine details abstracted: JS numbers are
modelled as integers plus an explicit NaN value (no claim depends on
fractional arithmetic), MongoDB ObjectIds as their 24-hex-digit string
form, and dates as natural-number timestamps passed in by the caller.
-/

set_option autoImplicit false

namespace CarShop

/-- Model of a JavaScript/BSON value as it flows through the handlers:
`undef` is JS `undefined` (also the result of reading an absent object
field), `nan` is the floating-point NaN produced by a failed `parseFloat`,
`oid s` is a MongoDB ObjectId whose canonical hex form is `s`, and
`date t` is a `Date` at timestamp `t`. -/
inductive JsVal where
  | undef
  | null
  | bool (b : Bool)
  | num (n : Int)
  | nan
  | str (s : String)
  | oid (s : String)
  | date (t : Nat)
  deriving DecidableEq

/-- A document / plain JS object: an association list from field names to
values.  Payloads come from JSON parsing, so keys are not duplicated. -/
def Doc : Type := List (String × JsVal)

instance : DecidableEq Doc := by
  unfold Doc
  infer_instance

/-- Reading field `k` of an object: the value at the first matching key,
or `undefined` when the key is absent. -/
def dGet (o : Doc) (k : String) : JsVal :=
  match o with
  | [] => JsVal.undef
  | (k', v) :: rest => if k' = k then v else dGet rest k

/-- Whether the object has field `k` (the JS `in` / own-property test). -/
def dHas (o : Doc) (k : String) : Bool :=
  match o with
  | [] => false
  | (k', _) :: rest => if k' = k then true else dHas rest k

/-- Writing field `k`: replaces the first binding in place, or appends.
Models both JS property assignment and a spread `{...o, k: v}`. -/
def dSet (o : Doc) (k : String) (v : JsVal) : Doc :=
  match o with
  | [] => [(k, v)]
  | (k', v') :: rest => if k' = k then (k, v) :: rest else (k', v') :: dSet rest k v

/-- The JS `delete o.k` operator: removes the binding for `k`. -/
def dDel (o : Doc) (k : String) : Doc :=
  o.filter (fun p => !(decide (p.1 = k)))

/-- MongoDB `$set`: apply every binding of the update document `s` to `d`. -/
def applySet (d : Doc) (s : Doc) : Doc :=
  s.foldl (fun acc p => dSet acc p.1 p.2) d

/-- JS truthiness: `undefined`, `null`, `false`, `0`, `NaN` and the empty
string are falsy, everything else (objects included) is truthy. -/
def jsTruthy : JsVal → Bool
  | JsVal.undef => false
  | JsVal.null => false
  | JsVal.bool b => b
  | JsVal.num n => !(decide (n = 0))
  | JsVal.nan => false
  | JsVal.str s => !(decide (s = ""))
  | JsVal.oid _ => true
  | JsVal.date _ => true

/-- JS strict equality `===`/`!==` as used in the handlers: `NaN` is equal
to nothing (itself included); otherwise value equality.  The handlers only
strict-compare strings and numbers, where this is exact. -/
def jsStrictEq (a b : JsVal) : Bool :=
  match a, b with
  | JsVal.nan, _ => false
  | _, JsVal.nan => false
  | x, y => decide (x = y)

/-- MongoDB query-equality on values, used for matching documents against
an equality query such as `{_id: ...}`. -/
def mongoEq (a b : JsVal) : Bool :=
  decide (a = b)

/-- Model of JS `parseFloat` restricted to the integer-valued inputs the
claims exercise: numbers pass through, numeric strings parse, everything
else (undefined, null, booleans, non-numeric strings) yields NaN. -/
def parseFloat : JsVal → JsVal
  | JsVal.num n => JsVal.num n
  | JsVal.str s =>
    match s.toInt? with
    | some n => JsVal.num n
    | none => JsVal.nan
  | _ => JsVal.nan

/-- Hex digit character for a value below 16 (lowercase, as ObjectId hex). -/
def hexDigit (n : Nat) : Char :=
  if n < 10 then Char.ofNat (48 + n) else Char.ofNat (87 + n)

/-- The `n`-th server-generated ObjectId, as its 24-hex-digit string. -/
def freshOid (n : Nat) : String :=
  String.mk (((List.range 24).reverse).map (fun i => hexDigit (n / 16 ^ i % 16)))

/-- Hex-digit test for ObjectId validity (both cases accepted). -/
def isHexChar (c : Char) : Bool :=
  c.isDigit || (('a' : Char) ≤ c && c ≤ ('f' : Char)) || (('A' : Char) ≤ c && c ≤ ('F' : Char))

/-- Model of `ObjectId.isValid` / the `new ObjectId(s)` well-formedness
check on strings: exactly 24 hex characters. -/
def isValidObjectId (s : String) : Bool :=
  decide (s.data.length = 24) && s.data.all isHexChar

/-- `new ObjectId(v)`: returns the canonical hex string, or `none` when the
constructor would throw (malformed string or non-id value). -/
def objectIdOf : JsVal → Option String
  | JsVal.str s => if isValidObjectId s then some s else none
  | JsVal.oid s => some s
  | _ => none

/-- The query `{_id: new ObjectId(cid)}` applied to a document. -/
def matchId (cid : String) (d : Doc) : Bool :=
  mongoEq (dGet d "_id") (JsVal.oid cid)

/-- `findOne`: the first document of the collection matching the query. -/
def findOne (docs : List Doc) (q : Doc → Bool) : Option Doc :=
  docs.find? q

/-- Result of a MongoDB `updateOne`: matched and modified counts. -/
structure UpdRes where
  matched : Nat
  modified : Nat
  deriving DecidableEq

/-- `updateOne` with a `$set` update: rewrites the first matching document;
`modified` is zero when nothing matched or the `$set` changed nothing. -/
def updateFirst : List Doc → (Doc → Bool) → Doc → UpdRes × List Doc
  | [], _, _ => (⟨0, 0⟩, [])
  | d :: rest, q, s =>
    if q d then
      (⟨1, if applySet d s = d then 0 else 1⟩, applySet d s :: rest)
    else
      let r := updateFirst rest q s
      (r.1, d :: r.2)

/-- `deleteOne`: removes the first matching document, returning the
deleted count. -/
def deleteFirst : List Doc → (Doc → Bool) → Nat × List Doc
  | [], _ => (0, [])
  | d :: rest, q =>
    if q d then (1, rest)
    else
      let r := deleteFirst rest q
      (r.1, d :: r.2)

/-- `insertOne`: server-assigns an `_id` when the document has none, and
returns the `insertedId` together with the grown collection. -/
def insertOne (docs : List Doc) (d : Doc) (fresh : Nat) : JsVal × List Doc :=
  let d' := if dHas d "_id" then d else dSet d "_id" (JsVal.oid (freshOid fresh))
  (dGet d' "_id", docs ++ [d'])

/-- The database state: the `cars` and `bookings` collections plus the
counter feeding server-generated ObjectIds. -/
structure DB where
  cars : List Doc
  bookings : List Doc
  nextOid : Nat
  deriving DecidableEq

/-- Response body shapes the handlers actually send. -/
inductive RBody where
  | msg (m : String)
  | insertRes (insertedId : JsVal)
  | updateRes (matched modified : Nat)
  | deleteRes (deleted : Nat)
  | bookRes (bookingId : JsVal) (carMatched carModified : Nat)
  | cancelRes (m : String) (carMatched carModified : Nat)
  | carDoc (d : Doc)
  deriving DecidableEq

/-- An HTTP response: status code and JSON body. -/
structure Resp where
  status : Nat
  body : RBody
  deriving DecidableEq

/-- GET /cars/:id — fetch one listing; 400 on a malformed id (the
`new ObjectId` throw is caught), 404 when absent. -/
def getCarsId (db : DB) (id : String) : Resp × DB :=
  match objectIdOf (JsVal.str id) with
  | none => ({ status := 400, body := RBody.msg "Invalid Car ID format." }, db)
  | some cid =>
    match findOne db.cars (matchId cid) with
    | none => ({ status := 404, body := RBody.msg "Car not found." }, db)
    | some car => ({ status := 200, body := RBody.carDoc car }, db)

/-- The required-fields check of POST /cars: JS truthiness of the three
fields `providerEmail`, `carName`, `rentPrice`. -/
def requiredMissing (newCar : Doc) : Bool :=
  !(jsTruthy (dGet newCar "providerEmail")) || !(jsTruthy (dGet newCar "carName"))
    || !(jsTruthy (dGet newCar "rentPrice"))

/-- The document inserted by POST /cars: the payload spread first, then
`rentPrice` coerced by `parseFloat`, `status` forced to Available and
`createdAt` server-assigned, overriding any caller-supplied values. -/
def carToInsert (newCar : Doc) (now : Nat) : Doc :=
  dSet (dSet (dSet newCar "rentPrice" (parseFloat (dGet newCar "rentPrice")))
      "status" (JsVal.str "Available"))
    "createdAt" (JsVal.date now)

/-- POST /cars — create a listing.  `callerEmail` is the authenticated
identity from the session guard; the handler never consults it. -/
def postCars (db : DB) (newCar : Doc) (now : Nat) (callerEmail : String) : Resp × DB :=
  if requiredMissing newCar then
    ({ status := 400, body := RBody.msg "Missing required fields." }, db)
  else
    ({ status := 200, body := RBody.insertRes (insertOne db.cars (carToInsert newCar now) db.nextOid).1 },
     { db with
        cars := (insertOne db.cars (carToInsert newCar now) db.nextOid).2,
        nextOid := db.nextOid + 1 })

/-- The PATCH /cars/:id payload after `delete updatedCarData.providerEmail`,
`delete updatedCarData.providerName`, `delete updatedCarData._id`. -/
def strippedUpdate (updatedCarData : Doc) : Doc :=
  dDel (dDel (dDel updatedCarData "providerEmail") "providerName") "_id"

/-- The `$set` document of PATCH /cars/:id: the stripped payload with
`rentPrice` parsed when truthy and reset to `0` otherwise. -/
def patchSetDoc (updatedCarData : Doc) : Doc :=
  dSet (strippedUpdate updatedCarData) "rentPrice"
    (if jsTruthy (dGet (strippedUpdate updatedCarData) "rentPrice") then
      parseFloat (dGet (strippedUpdate updatedCarData) "rentPrice")
    else JsVal.num 0)

/-- PATCH /cars/:id — owner-checked update. -/
def patchCarsId (db : DB) (id : String) (updatedCarData : Doc) (userEmail : String) : Resp × DB :=
  if !(isValidObjectId id) then
    ({ status := 400, body := RBody.msg "Invalid Car ID format." }, db)
  else
    match findOne db.cars (matchId id) with
    | none => ({ status := 404, body := RBody.msg "Car not found." }, db)
    | some car =>
      if !(jsStrictEq (dGet car "providerEmail") (JsVal.str userEmail)) then
        ({ status := 403, body := RBody.msg "Forbidden: You do not own this listing." }, db)
      else
        let u := updateFirst db.cars (matchId id) (patchSetDoc updatedCarData)
        ({ status := 200, body := RBody.updateRes u.1.matched u.1.modified },
         { db with cars := u.2 })

/-- DELETE /cars/:id — owner-checked delete (no cascade on bookings). -/
def deleteCarsId (db : DB) (id : String) (userEmail : String) : Resp × DB :=
  match objectIdOf (JsVal.str id) with
  | none => ({ status := 400, body := RBody.msg "Invalid Car ID format." }, db)
  | some cid =>
    match findOne db.cars (matchId cid) with
    | none => ({ status := 404, body := RBody.msg "Car not found." }, db)
    | some car =>
      if !(jsStrictEq (dGet car "providerEmail") (JsVal.str userEmail)) then
        ({ status := 403, body := RBody.msg "Forbidden: You do not own this listing." }, db)
      else
        let r := deleteFirst db.cars (matchId cid)
        ({ status := 200, body := RBody.deleteRes r.1 }, { db with cars := r.2 })

/-- The booking document inserted by POST /book: the payload spread first,
then `carId` replaced by its ObjectId and a server `bookingDate`. -/
def bookingToInsert (bookingData : Doc) (cid : String) (now : Nat) : Doc :=
  dSet (dSet bookingData "carId" (JsVal.oid cid)) "bookingDate" (JsVal.date now)

/-- The write phase of POST /book (steps 5-7): insert the booking, flip the
listing status to Booked, and on a zero-modified update delete the
just-inserted booking again and fail with 500. -/
def postBookCommit (db : DB) (bookingData : Doc) (cid : String) (now : Nat) : Resp × DB :=
  let ins := insertOne db.bookings (bookingToInsert bookingData cid now) db.nextOid
  let dbI : DB := { db with bookings := ins.2, nextOid := db.nextOid + 1 }
  let u := updateFirst dbI.cars (matchId cid) [("status", JsVal.str "Booked")]
  let dbU : DB := { dbI with cars := u.2 }
  if u.1.modified = 0 then
    ({ status := 500, body := RBody.msg "Booking failed: Could not update car status." },
     { dbU with bookings := (deleteFirst dbU.bookings (fun b => mongoEq (dGet b "_id") ins.1)).2 })
  else
    ({ status := 200, body := RBody.bookRes ins.1 u.1.matched u.1.modified }, dbU)

/-- POST /book with an explicit interleaving point: the availability checks
run against the snapshot `db₁` while the insert and status update execute
on `db₂` (a concurrent writer may act between the check and the write; the
sequential call is `db₂ = db₁`). -/
def postBook2 (db₁ db₂ : DB) (bookingData : Doc) (userEmail : String) (now : Nat) : Resp × DB :=
  if !(jsStrictEq (dGet bookingData "userEmail") (JsVal.str userEmail)) then
    ({ status := 403, body := RBody.msg "Forbidden: User email mismatch." }, db₂)
  else
    match objectIdOf (dGet bookingData "carId") with
    | none => ({ status := 500, body := RBody.msg "An unexpected error occurred during booking." }, db₂)
    | some cid =>
      match findOne db₁.cars (matchId cid) with
      | none => ({ status := 404, body := RBody.msg "Booking failed: Car not found." }, db₂)
      | some car =>
        if jsStrictEq (dGet car "providerEmail") (JsVal.str userEmail) then
          ({ status := 400, body := RBody.msg "Booking failed: You cannot book your own listing." }, db₂)
        else if !(jsStrictEq (dGet car "status") (JsVal.str "Available")) then
          ({ status := 400, body := RBody.msg "Booking failed: Car is already booked or unavailable." }, db₂)
        else
          postBookCommit db₂ bookingData cid now

/-- POST /book — sequential execution (no concurrent interleaving). -/
def postBook (db : DB) (bookingData : Doc) (userEmail : String) (now : Nat) : Resp × DB :=
  postBook2 db db bookingData userEmail now

/-- The query `{_id: new ObjectId(bid), userEmail: userEmail}` of the
cancellation route. -/
def bookingMatch (bid : String) (userEmail : String) (b : Doc) : Bool :=
  mongoEq (dGet b "_id") (JsVal.oid bid) && mongoEq (dGet b "userEmail") (JsVal.str userEmail)

/-- DELETE /booking/:id — cancel an owned booking and unconditionally set
the referenced listing back to Available (a silent no-op when the listing
no longer exists). -/
def deleteBookingId (db : DB) (bookingId : String) (userEmail : String) : Resp × DB :=
  match objectIdOf (JsVal.str bookingId) with
  | none => ({ status := 400, body := RBody.msg "Invalid Booking ID format or server error." }, db)
  | some bid =>
    match findOne db.bookings (bookingMatch bid userEmail) with
    | none =>
      ({ status := 404, body := RBody.msg "Booking not found or no permission to cancel it." }, db)
    | some booking =>
      let del := deleteFirst db.bookings (bookingMatch bid userEmail)
      if del.1 = 0 then
        ({ status := 500, body := RBody.msg "Cancellation failed on database." },
         { db with bookings := del.2 })
      else
        let u := updateFirst db.cars (fun c => mongoEq (dGet c "_id") (dGet booking "carId"))
          [("status", JsVal.str "Available")]
        ({ status := 200,
           body := RBody.cancelRes "Booking cancelled and car status updated to Available." u.1.matched u.1.modified },
         { db with bookings := del.2, cars := u.2 })

/-! ### Basic lemmas about document field operations -/

theorem dGet_dSet (o : Doc) (k k' : String) (v : JsVal) :
    dGet (dSet o k v) k' = if k' = k then v else dGet o k' := by
  induction o with
  | nil =>
    simp only [dSet, dGet]
    by_cases h : k = k'
    · simp [h]
    · simp [h, Ne.symm h]
  | cons p rest ih =>
    obtain ⟨a, b⟩ := p
    simp only [dSet]
    by_cases hak : a = k
    · subst hak
      simp only [if_pos rfl, dGet]
      by_cases h : a = k'
      · simp [h]
      · simp [h, Ne.symm h]
    · simp only [if_neg hak, dGet]
      by_cases hak' : a = k'
      · have hk'k : ¬(k' = k) := by
          intro hh
          exact hak (hak'.trans hh)
        simp [hak', hk'k]
      · simp [hak', ih]

theorem dHas_dSet (o : Doc) (k k' : String) (v : JsVal) :
    dHas (dSet o k v) k' = if k' = k then true else dHas o k' := by
  induction o with
  | nil =>
    simp only [dSet, dHas]
    by_cases h : k = k'
    · simp [h]
    · simp [h, Ne.symm h]
  | cons p rest ih =>
    obtain ⟨a, b⟩ := p
    simp only [dSet]
    by_cases hak : a = k
    · subst hak
      simp only [if_pos rfl, dHas]
      by_cases h : a = k'
      · simp [h]
      · simp [h, Ne.symm h]
    · simp only [if_neg hak, dHas]
      by_cases hak' : a = k'
      · have hk'k : ¬(k' = k) := by
          intro hh
          exact hak (hak'.trans hh)
        simp [hak', hk'k]
      · simp [hak', ih]

theorem dGet_dDel (o : Doc) (k k' : String) :
    dGet (dDel o k) k' = if k' = k then JsVal.undef else dGet o k' := by
  induction o with
  | nil => simp [dDel, dGet]
  | cons p rest ih =>
    obtain ⟨a, b⟩ := p
    by_cases hak : a = k
    · subst hak
      have hfilter : dDel ((a, b) :: rest) a = dDel rest a := by
        simp [dDel, List.filter_cons]
      rw [hfilter, ih]
      by_cases h : k' = a
      · simp [h]
      · simp [h, dGet, Ne.symm h]
    · have hfilter : dDel ((a, b) :: rest) k = (a, b) :: dDel rest k := by
        simp [dDel, List.filter_cons, hak]
      rw [hfilter]
      simp only [dGet, ih]
      by_cases hak' : a = k'
      · have hk'k : ¬(k' = k) := fun hh => hak (hak'.trans hh)
        simp [hak', hk'k]
      · simp [hak']

theorem dHas_dDel (o : Doc) (k k' : String) :
    dHas (dDel o k) k' = if k' = k then false else dHas o k' := by
  induction o with
  | nil => simp [dDel, dHas]
  | cons p rest ih =>
    obtain ⟨a, b⟩ := p
    by_cases hak : a = k
    · subst hak
      have hfilter : dDel ((a, b) :: rest) a = dDel rest a := by
        simp [dDel, List.filter_cons]
      rw [hfilter, ih]
      by_cases h : k' = a
      · simp [h]
      · simp [h, dHas, Ne.symm h]
    · have hfilter : dDel ((a, b) :: rest) k = (a, b) :: dDel rest k := by
        simp [dDel, List.filter_cons, hak]
      rw [hfilter]
      simp only [dHas, ih]
      by_cases hak' : a = k'
      · have hk'k : ¬(k' = k) := fun hh => hak (hak'.trans hh)
        simp [hak', hk'k]
      · simp [hak']

theorem dGet_applySet_of_not_has (s : Doc) (d : Doc) (k : String) (h : dHas s k = false) :
    dGet (applySet d s) k = dGet d k := by
  induction s generalizing d with
  | nil => rfl
  | cons p rest ih =>
    obtain ⟨a, b⟩ := p
    simp only [dHas] at h
    by_cases hak : a = k
    · simp [hak] at h
    · simp only [if_neg hak] at h
      simp only [applySet, List.foldl_cons] at ih ⊢
      rw [ih _ h, dGet_dSet, if_neg (fun hh => hak hh.symm)]

theorem applySet_singleton (d : Doc) (k : String) (v : JsVal) :
    applySet d [(k, v)] = dSet d k v := rfl

theorem jsStrictEq_eq_of_true (a b : JsVal) (h : jsStrictEq a b = true) : a = b := by
  cases a <;> cases b <;> simp_all [jsStrictEq]

theorem jsStrictEq_str (a b : String) :
    jsStrictEq (JsVal.str a) (JsVal.str b) = decide (a = b) := by
  simp [jsStrictEq]

/-! ### Lemmas about the collection primitives -/

theorem findOne_nil (q : Doc → Bool) : findOne [] q = none := rfl

theorem findOne_cons (d : Doc) (docs : List Doc) (q : Doc → Bool) :
    findOne (d :: docs) q = if q d then some d else findOne docs q := by
  simp [findOne, List.find?_cons]
  by_cases h : q d <;> simp [h]

theorem findOne_some {docs : List Doc} {q : Doc → Bool} {d : Doc}
    (h : findOne docs q = some d) : q d = true :=
  List.find?_some h

theorem findOne_append_cons (pre post : List Doc) (d : Doc) (q : Doc → Bool)
    (hpre : ∀ x ∈ pre, q x = false) (hd : q d = true) :
    findOne (pre ++ d :: post) q = some d := by
  induction pre with
  | nil => simp [findOne_cons, hd]
  | cons a rest ih =>
    have ha : q a = false := hpre a (by simp)
    simp only [List.cons_append, findOne_cons, ha]
    simp only [Bool.false_eq_true, if_neg (by simp : ¬(False : Prop))]
    exact ih (fun x hx => hpre x (by simp [hx]))

theorem updateFirst_of_findOne_none (docs : List Doc) (q : Doc → Bool) (s : Doc)
    (h : findOne docs q = none) : updateFirst docs q s = (⟨0, 0⟩, docs) := by
  induction docs with
  | nil => rfl
  | cons d rest ih =>
    rw [findOne_cons] at h
    by_cases hd : q d
    · simp [hd] at h
    · simp only [hd, if_neg (by simp : ¬(False : Prop))] at h
      simp [updateFirst, hd, ih h]

theorem updateFirst_spec_of_findOne (docs : List Doc) (q : Doc → Bool) (s : Doc) (d : Doc)
    (h : findOne docs q = some d) :
    ∃ pre post, docs = pre ++ d :: post ∧ (∀ x ∈ pre, q x = false) ∧
      updateFirst docs q s =
        (⟨1, if applySet d s = d then 0 else 1⟩, pre ++ applySet d s :: post) := by
  induction docs with
  | nil => simp [findOne_nil] at h
  | cons a rest ih =>
    rw [findOne_cons] at h
    by_cases ha : q a
    · simp only [ha, if_pos trivial, Option.some.injEq] at h
      subst h
      exact ⟨[], rest, by simp, by simp, by simp [updateFirst, ha]⟩
    · simp only [ha, if_neg (by simp : ¬(False : Prop))] at h
      obtain ⟨pre, post, hdocs, hpre, hupd⟩ := ih h
      refine ⟨a :: pre, post, by simp [hdocs], ?_, ?_⟩
      · intro x hx
        rcases List.mem_cons.mp hx with hx | hx
        · subst hx
          simpa using ha
        · exact hpre x hx
      · simp [updateFirst, ha, hupd]

theorem updateFirst_modified_zero (docs : List Doc) (q : Doc → Bool) (s : Doc)
    (h : (updateFirst docs q s).1.modified = 0) : (updateFirst docs q s).2 = docs := by
  cases hfind : findOne docs q with
  | none => simp [updateFirst_of_findOne_none docs q s hfind]
  | some d =>
    obtain ⟨pre, post, hdocs, hpre, hupd⟩ := updateFirst_spec_of_findOne docs q s d hfind
    rw [hupd] at h ⊢
    by_cases he : applySet d s = d
    · simp [hdocs, he]
    · simp [he] at h

theorem updateFirst_modified_ne_zero (docs : List Doc) (q : Doc → Bool) (s : Doc)
    (h : (updateFirst docs q s).1.modified ≠ 0) : ∃ d, findOne docs q = some d := by
  cases hfind : findOne docs q with
  | none => exact absurd (by rw [updateFirst_of_findOne_none docs q s hfind]) h
  | some d => exact ⟨d, rfl⟩

theorem findOne_updateFirst (docs : List Doc) (q : Doc → Bool) (s : Doc) (d : Doc)
    (h : findOne docs q = some d) (hq : q (applySet d s) = true) :
    findOne (updateFirst docs q s).2 q = some (applySet d s) := by
  obtain ⟨pre, post, _, hpre, hupd⟩ := updateFirst_spec_of_findOne docs q s d h
  rw [hupd]
  exact findOne_append_cons pre post (applySet d s) q hpre hq

theorem deleteFirst_spec_of_findOne (docs : List Doc) (q : Doc → Bool) (d : Doc)
    (h : findOne docs q = some d) :
    ∃ pre post, docs = pre ++ d :: post ∧ (∀ x ∈ pre, q x = false) ∧
      deleteFirst docs q = (1, pre ++ post) := by
  induction docs with
  | nil => simp [findOne_nil] at h
  | cons a rest ih =>
    rw [findOne_cons] at h
    by_cases ha : q a
    · simp only [ha, if_pos trivial, Option.some.injEq] at h
      subst h
      exact ⟨[], rest, by simp, by simp, by simp [deleteFirst, ha]⟩
    · simp only [ha, if_neg (by simp : ¬(False : Prop))] at h
      obtain ⟨pre, post, hdocs, hpre, hdel⟩ := ih h
      refine ⟨a :: pre, post, by simp [hdocs], ?_, ?_⟩
      · intro x hx
        rcases List.mem_cons.mp hx with hx | hx
        · subst hx
          simpa using ha
        · exact hpre x hx
      · simp [deleteFirst, ha, hdel]

theorem deleteFirst_append_singleton (docs : List Doc) (q : Doc → Bool) (d : Doc)
    (hpre : ∀ b ∈ docs, q b = false) (hd : q d = true) :
    deleteFirst (docs ++ [d]) q = (1, docs) := by
  induction docs with
  | nil => simp [deleteFirst, hd]
  | cons a rest ih =>
    have ha : q a = false := hpre a (by simp)
    simp only [List.cons_append, deleteFirst, ha]
    simp only [Bool.false_eq_true, if_neg (by simp : ¬(False : Prop)), List.append_eq]
    rw [ih (fun x hx => hpre x (by simp [hx]))]

/-! ### Concrete states and requests used by witnesses and counterexamples -/

/-- A well-formed ObjectId string for a listing. -/
def oidA : String := "0123456789abcdef01234567"

/-- A well-formed ObjectId string for a booking. -/
def oidB : String := "89abcdef0123456789abcdef"

/-- An Available listing owned by `a@x.com`. -/
def carA : Doc :=
  [("_id", JsVal.oid oidA), ("providerEmail", JsVal.str "a@x.com"),
   ("carName", JsVal.str "Civic"), ("rentPrice", JsVal.num 20),
   ("status", JsVal.str "Available")]

/-- The same listing while Booked. -/
def carABooked : Doc :=
  [("_id", JsVal.oid oidA), ("providerEmail", JsVal.str "a@x.com"),
   ("carName", JsVal.str "Civic"), ("rentPrice", JsVal.num 20),
   ("status", JsVal.str "Booked")]

/-- A booking of `carA` by `b@x.com`. -/
def bookingA : Doc :=
  [("_id", JsVal.oid oidB), ("userEmail", JsVal.str "b@x.com"),
   ("carId", JsVal.oid oidA)]

/-- Database holding just the Available listing `carA`. -/
def dbA : DB := ⟨[carA], [], 1⟩

/-- The empty database. -/
def dbEmpty : DB := ⟨[], [], 0⟩

/-- Database where `carA` is Booked by the booking `bookingA`. -/
def dbBooked : DB := ⟨[carABooked], [bookingA], 2⟩

/-- Create request missing only `carName`. -/
def carReqNoName : Doc :=
  [("providerEmail", JsVal.str "a@x.com"), ("rentPrice", JsVal.num 5)]

/-- Create request missing only `rentPrice`. -/
def carReqNoPrice : Doc :=
  [("providerEmail", JsVal.str "a@x.com"), ("carName", JsVal.str "Civic")]

/-- Create request that also smuggles in its own `status` and `createdAt`. -/
def carReqSneaky : Doc :=
  [("providerEmail", JsVal.str "a@x.com"), ("carName", JsVal.str "Civic"),
   ("rentPrice", JsVal.str "20"), ("status", JsVal.str "Booked"),
   ("createdAt", JsVal.date 1)]

/-- Create request whose `rentPrice` is present but the number `0`. -/
def carReqZeroPrice : Doc :=
  [("providerEmail", JsVal.str "a@x.com"), ("carName", JsVal.str "Civic"),
   ("rentPrice", JsVal.num 0)]

/-! ### Claim theorems -/

/-- C6: for every listing created via POST /cars, immediately after creation
the stored record has status `Available` and a server-assigned `createdAt`,
even when the caller's payload supplies its own `status` or `createdAt`
values (the server values override the caller's). -/
theorem create_forces_status_and_createdAt (db : DB) (newCar : Doc) (now : Nat)
    (callerEmail : String)
    (h1 : jsTruthy (dGet newCar "providerEmail") = true)
    (h2 : jsTruthy (dGet newCar "carName") = true)
    (h3 : jsTruthy (dGet newCar "rentPrice") = true) :
    (postCars db newCar now callerEmail).1.status = 200 ∧
    ∃ doc, (postCars db newCar now callerEmail).2.cars = db.cars ++ [doc] ∧
      dGet doc "status" = JsVal.str "Available" ∧
      dGet doc "createdAt" = JsVal.date now := by
  have hreq : requiredMissing newCar = false := by
    simp [requiredMissing, h1, h2, h3]
  refine ⟨by simp [postCars, hreq], ?_⟩
  by_cases hid : dHas (carToInsert newCar now) "_id"
  · refine ⟨carToInsert newCar now, ?_, ?_, ?_⟩
    · simp [postCars, hreq, insertOne, hid]
    · simp [carToInsert, dGet_dSet]
    · simp [carToInsert, dGet_dSet]
  · refine ⟨dSet (carToInsert newCar now) "_id" (JsVal.oid (freshOid db.nextOid)), ?_, ?_, ?_⟩
    · simp [postCars, hreq, insertOne, hid]
    · simp [carToInsert, dGet_dSet]
    · simp [carToInsert, dGet_dSet]

/-- Witness for C6: a concrete create whose payload supplies `status` and
`createdAt`, both overridden by the server. -/
theorem create_forces_status_and_createdAt_witness :
    jsTruthy (dGet carReqSneaky "providerEmail") = true ∧
    ((postCars dbEmpty carReqSneaky 7 "a@x.com").1.status = 200 ∧
    ∃ doc, (postCars dbEmpty carReqSneaky 7 "a@x.com").2.cars = dbEmpty.cars ++ [doc] ∧
      dGet doc "status" = JsVal.str "Available" ∧
      dGet doc "createdAt" = JsVal.date 7) :=
  ⟨by decide,
   create_forces_status_and_createdAt dbEmpty carReqSneaky 7 "a@x.com"
     (by decide) (by decide) (by decide)⟩

/-- C7 counterexample: two create requests with different missing required
fields (`carName` in one, `rentPrice` in the other) receive the exact same
response, a fixed "Missing required fields." message — so the ValidationError
response does not list the missing fields. -/
theorem create_missing_fields_response_cex :
    jsTruthy (dGet carReqNoName "carName") = false ∧
    jsTruthy (dGet carReqNoName "rentPrice") = true ∧
    jsTruthy (dGet carReqNoPrice "carName") = true ∧
    jsTruthy (dGet carReqNoPrice "rentPrice") = false ∧
    postCars dbEmpty carReqNoName 7 "a@x.com" = postCars dbEmpty carReqNoPrice 7 "a@x.com" ∧
    (postCars dbEmpty carReqNoName 7 "a@x.com").1.body = RBody.msg "Missing required fields." := by
  decide

/-- C7 (amended): for every create-listing request in which any of
`providerEmail`, `carName`, `rentPrice` is missing (falsy), the call fails
with status 400 and the fixed "Missing required fields." message (which
does not list which fields are missing), and no record is inserted. -/
theorem create_missing_fields_rejected (db : DB) (newCar : Doc) (now : Nat)
    (callerEmail : String)
    (h : jsTruthy (dGet newCar "providerEmail") = false ∨
      jsTruthy (dGet newCar "carName") = false ∨
      jsTruthy (dGet newCar "rentPrice") = false) :
    postCars db newCar now callerEmail =
      ({ status := 400, body := RBody.msg "Missing required fields." }, db) := by
  have hreq : requiredMissing newCar = true := by
    rcases h with h | h | h <;> simp [requiredMissing, h]
  simp [postCars, hreq]

/-- Witness for C7 (amended): a concrete request missing `carName` is
rejected with the fixed message and an unchanged store. -/
theorem create_missing_fields_rejected_witness :
    jsTruthy (dGet carReqNoName "carName") = false ∧
    postCars dbEmpty carReqNoName 7 "a@x.com" =
      ({ status := 400, body := RBody.msg "Missing required fields." }, dbEmpty) :=
  ⟨by decide,
   create_missing_fields_rejected dbEmpty carReqNoName 7 "a@x.com"
     (Or.inr (Or.inl (by decide)))⟩

/-- C8: POST /cars performs no check that the payload's `providerEmail`
equals the authenticated caller's email — the result is literally
independent of the caller identity, and a payload passing the
required-fields check is inserted with a `providerEmail` naming a
different user. -/
theorem create_ignores_caller_identity (db : DB) (newCar : Doc) (now : Nat)
    (callerEmail otherEmail p : String)
    (hp : dGet newCar "providerEmail" = JsVal.str p)
    (hne : p ≠ callerEmail)
    (h1 : jsTruthy (dGet newCar "providerEmail") = true)
    (h2 : jsTruthy (dGet newCar "carName") = true)
    (h3 : jsTruthy (dGet newCar "rentPrice") = true) :
    postCars db newCar now callerEmail = postCars db newCar now otherEmail ∧
    (postCars db newCar now callerEmail).1.status = 200 ∧
    ∃ doc, (postCars db newCar now callerEmail).2.cars = db.cars ++ [doc] ∧
      dGet doc "providerEmail" = JsVal.str p := by
  have hreq : requiredMissing newCar = false := by
    simp [requiredMissing, h1, h2, h3]
  refine ⟨rfl, by simp [postCars, hreq], ?_⟩
  by_cases hid : dHas (carToInsert newCar now) "_id"
  · refine ⟨carToInsert newCar now, ?_, ?_⟩
    · simp [postCars, hreq, insertOne, hid]
    · simp [carToInsert, dGet_dSet, hp]
  · refine ⟨dSet (carToInsert newCar now) "_id" (JsVal.oid (freshOid db.nextOid)), ?_, ?_⟩
    · simp [postCars, hreq, insertOne, hid]
    · simp [carToInsert, dGet_dSet, hp]

/-- Witness for C8: caller `z@x.com` creates a listing owned by
`a@x.com`; the insert succeeds and the handler output does not depend on
the caller identity at all. -/
theorem create_ignores_caller_identity_witness :
    dGet carReqSneaky "providerEmail" = JsVal.str "a@x.com" ∧
    (postCars dbEmpty carReqSneaky 7 "z@x.com" = postCars dbEmpty carReqSneaky 7 "q@x.com" ∧
    (postCars dbEmpty carReqSneaky 7 "z@x.com").1.status = 200 ∧
    ∃ doc, (postCars dbEmpty carReqSneaky 7 "z@x.com").2.cars = dbEmpty.cars ++ [doc] ∧
      dGet doc "providerEmail" = JsVal.str "a@x.com") :=
  ⟨by decide,
   create_ignores_caller_identity dbEmpty carReqSneaky 7 "z@x.com" "q@x.com" "a@x.com"
     (by decide) (by decide) (by decide) (by decide) (by decide)⟩

/-- C10: the required-fields check of POST /cars tests JS truthiness, not
presence — a request whose `rentPrice` is the number `0`, or any required
field the empty string, is rejected with the missing-fields error even
though the field is present in the payload. -/
theorem create_truthiness_check (db : DB) (newCar : Doc) (now : Nat) (callerEmail : String)
    (h : dGet newCar "rentPrice" = JsVal.num 0 ∨
      dGet newCar "providerEmail" = JsVal.str "" ∨
      dGet newCar "carName" = JsVal.str "" ∨
      dGet newCar "rentPrice" = JsVal.str "") :
    postCars db newCar now callerEmail =
      ({ status := 400, body := RBody.msg "Missing required fields." }, db) := by
  have hreq : requiredMissing newCar = true := by
    rcases h with h | h | h | h <;> simp [requiredMissing, h, jsTruthy]
  simp [postCars, hreq]

/-- Witness for C10: `rentPrice` present but `0` is rejected as missing. -/
theorem create_truthiness_check_witness :
    (dGet carReqZeroPrice "rentPrice" = JsVal.num 0 ∧
     dHas carReqZeroPrice "rentPrice" = true) ∧
    postCars dbEmpty carReqZeroPrice 7 "a@x.com" =
      ({ status := 400, body := RBody.msg "Missing required fields." }, dbEmpty) :=
  ⟨by decide,
   create_truthiness_check dbEmpty carReqZeroPrice 7 "a@x.com" (Or.inl (by decide))⟩

/-- C5: for every authenticated caller whose email differs from an existing
listing's `providerEmail`, both PATCH /cars/:id and DELETE /cars/:id on
that listing fail with 403 Forbidden and leave the store unchanged. -/
theorem nonOwner_update_delete_forbidden (db : DB) (id : String) (payload : Doc)
    (userEmail p : String) (car : Doc)
    (hvalid : isValidObjectId id = true)
    (hfind : findOne db.cars (matchId id) = some car)
    (hp : dGet car "providerEmail" = JsVal.str p)
    (hne : p ≠ userEmail) :
    patchCarsId db id payload userEmail =
      ({ status := 403, body := RBody.msg "Forbidden: You do not own this listing." }, db) ∧
    deleteCarsId db id userEmail =
      ({ status := 403, body := RBody.msg "Forbidden: You do not own this listing." }, db) := by
  have hstr : jsStrictEq (dGet car "providerEmail") (JsVal.str userEmail) = false := by
    rw [hp, jsStrictEq_str]
    simp [hne]
  constructor
  · simp [patchCarsId, hvalid, hfind, hstr]
  · simp [deleteCarsId, objectIdOf, hvalid, hfind, hstr]

/-- Witness for C5: caller `c@x.com` can neither update nor delete the
listing owned by `a@x.com`. -/
theorem nonOwner_update_delete_forbidden_witness :
    dGet carA "providerEmail" = JsVal.str "a@x.com" ∧
    (patchCarsId dbA oidA [("carName", JsVal.str "Jazz")] "c@x.com" =
      ({ status := 403, body := RBody.msg "Forbidden: You do not own this listing." }, dbA) ∧
    deleteCarsId dbA oidA "c@x.com" =
      ({ status := 403, body := RBody.msg "Forbidden: You do not own this listing." }, dbA)) :=
  ⟨by decide,
   nonOwner_update_delete_forbidden dbA oidA [("carName", JsVal.str "Jazz")] "c@x.com"
     "a@x.com" carA (by decide) (by decide) (by decide) (by decide)⟩

/-- C2: a POST /book attempt on an existing listing that is not Available,
or that the caller owns, fails with status 400 and leaves both stores
unchanged. -/
theorem postBook_reject_preserves_state (db : DB) (data : Doc) (email : String)
    (now : Nat) (cid : String) (car : Doc)
    (h1 : dGet data "userEmail" = JsVal.str email)
    (h2 : dGet data "carId" = JsVal.str cid)
    (h3 : isValidObjectId cid = true)
    (h4 : findOne db.cars (matchId cid) = some car)
    (h5 : jsStrictEq (dGet car "providerEmail") (JsVal.str email) = true ∨
      jsStrictEq (dGet car "status") (JsVal.str "Available") = false) :
    (postBook db data email now).1.status = 400 ∧
    (postBook db data email now).2 = db := by
  have hemail : jsStrictEq (dGet data "userEmail") (JsVal.str email) = true := by
    rw [h1, jsStrictEq_str]
    simp
  by_cases hown : jsStrictEq (dGet car "providerEmail") (JsVal.str email) = true
  · constructor <;> simp [postBook, postBook2, hemail, h2, objectIdOf, h3, h4, hown]
  · have hb : jsStrictEq (dGet car "providerEmail") (JsVal.str email) = false := by
      simpa using hown
    have hst : jsStrictEq (dGet car "status") (JsVal.str "Available") = false := by
      rcases h5 with h5 | h5
      · exact absurd h5 hown
      · exact h5
    constructor <;> simp [postBook, postBook2, hemail, h2, objectIdOf, h3, h4, hb, hst]

/-- Witness for C2: the owner `a@x.com` tries to book their own Available
listing; the call fails with 400 and the state is untouched. -/
theorem postBook_reject_preserves_state_witness :
    findOne dbA.cars (matchId oidA) = some carA ∧
    ((postBook dbA [("userEmail", JsVal.str "a@x.com"), ("carId", JsVal.str oidA)] "a@x.com" 9).1.status = 400 ∧
    (postBook dbA [("userEmail", JsVal.str "a@x.com"), ("carId", JsVal.str oidA)] "a@x.com" 9).2 = dbA) :=
  ⟨by decide,
   postBook_reject_preserves_state dbA
     [("userEmail", JsVal.str "a@x.com"), ("carId", JsVal.str oidA)] "a@x.com" 9 oidA carA
     (by decide) (by decide) (by decide) (by decide) (Or.inl (by decide))⟩

/-- C9: a POST /book whose payload `userEmail` matches the caller but whose
`carId` is malformed fails with the generic 500 booking error and inserts
nothing, while GET, PATCH and DELETE /cars/:id answer the same malformed id
with a 400 "Invalid Car ID format." error. -/
theorem book_malformed_id_internal_error (db : DB) (data : Doc) (email e2 : String)
    (payload : Doc) (now : Nat) (cid : String)
    (h1 : dGet data "userEmail" = JsVal.str email)
    (h2 : dGet data "carId" = JsVal.str cid)
    (h3 : isValidObjectId cid = false) :
    postBook db data email now =
      ({ status := 500, body := RBody.msg "An unexpected error occurred during booking." }, db) ∧
    getCarsId db cid = ({ status := 400, body := RBody.msg "Invalid Car ID format." }, db) ∧
    patchCarsId db cid payload e2 = ({ status := 400, body := RBody.msg "Invalid Car ID format." }, db) ∧
    deleteCarsId db cid e2 = ({ status := 400, body := RBody.msg "Invalid Car ID format." }, db) := by
  have hemail : jsStrictEq (dGet data "userEmail") (JsVal.str email) = true := by
    rw [h1, jsStrictEq_str]
    simp
  refine ⟨?_, ?_, ?_, ?_⟩
  · simp [postBook, postBook2, hemail, h2, objectIdOf, h3]
  · simp [getCarsId, objectIdOf, h3]
  · simp [patchCarsId, h3]
  · simp [deleteCarsId, objectIdOf, h3]

/-- Witness for C9: the malformed id `"abc"` yields 500 on /book and 400 on
the /cars/:id routes, with no state change. -/
theorem book_malformed_id_internal_error_witness :
    isValidObjectId "abc" = false ∧
    (postBook dbA [("userEmail", JsVal.str "b@x.com"), ("carId", JsVal.str "abc")] "b@x.com" 9 =
      ({ status := 500, body := RBody.msg "An unexpected error occurred during booking." }, dbA) ∧
    getCarsId dbA "abc" = ({ status := 400, body := RBody.msg "Invalid Car ID format." }, dbA) ∧
    patchCarsId dbA "abc" [] "b@x.com" = ({ status := 400, body := RBody.msg "Invalid Car ID format." }, dbA) ∧
    deleteCarsId dbA "abc" "b@x.com" = ({ status := 400, body := RBody.msg "Invalid Car ID format." }, dbA)) :=
  ⟨by decide,
   book_malformed_id_internal_error dbA
     [("userEmail", JsVal.str "b@x.com"), ("carId", JsVal.str "abc")] "b@x.com" "b@x.com"
     [] 9 "abc" (by decide) (by decide) (by decide)⟩

/-- C3 counterexample: PATCH /cars/:id only strips `providerEmail`,
`providerName` and `_id` from the payload, so an owner update whose payload
contains a `status` field does change the listing's status: here from
Available to Booked, outside any Booking Transition. -/
theorem patch_status_change_cex :
    Option.map (fun d => dGet d "status") (findOne dbA.cars (matchId oidA)) =
      some (JsVal.str "Available") ∧
    Option.map (fun d => dGet d "status")
        (findOne (patchCarsId dbA oidA [("status", JsVal.str "Booked")] "a@x.com").2.cars
          (matchId oidA)) =
      some (JsVal.str "Booked") := by
  decide

/-- C3 (amended): PATCH /cars/:id strips only `providerEmail`,
`providerName` and `_id` from the payload; any other supplied field,
`status` included, is written through.  The listing's status is therefore
left unchanged by an owner update exactly when the payload carries no
`status` key. -/
theorem patch_preserves_status_without_status_key (db : DB) (id : String)
    (payload : Doc) (userEmail : String) (car : Doc)
    (hvalid : isValidObjectId id = true)
    (hfind : findOne db.cars (matchId id) = some car)
    (howner : jsStrictEq (dGet car "providerEmail") (JsVal.str userEmail) = true)
    (hnostatus : dHas payload "status" = false) :
    (patchCarsId db id payload userEmail).1.status = 200 ∧
    ∃ car', findOne (patchCarsId db id payload userEmail).2.cars (matchId id) = some car' ∧
      dGet car' "status" = dGet car "status" := by
  have hsetId : dHas (patchSetDoc payload) "_id" = false := by
    simp [patchSetDoc, strippedUpdate, dHas_dSet, dHas_dDel]
  have hsetStatus : dHas (patchSetDoc payload) "status" = false := by
    simp [patchSetDoc, strippedUpdate, dHas_dSet, dHas_dDel, hnostatus]
  have hqpres : matchId id (applySet car (patchSetDoc payload)) = true := by
    have := findOne_some hfind
    simpa [matchId, dGet_applySet_of_not_has _ _ _ hsetId] using this
  have hfound := findOne_updateFirst db.cars (matchId id) (patchSetDoc payload) car hfind hqpres
  refine ⟨by simp [patchCarsId, hvalid, hfind, howner], applySet car (patchSetDoc payload), ?_, ?_⟩
  · simpa [patchCarsId, hvalid, hfind, howner] using hfound
  · exact dGet_applySet_of_not_has _ _ _ hsetStatus

/-- Witness for C3 (amended): an owner update renaming the car leaves the
status untouched. -/
theorem patch_preserves_status_without_status_key_witness :
    dHas [("carName", JsVal.str "Jazz")] "status" = false ∧
    ((patchCarsId dbA oidA [("carName", JsVal.str "Jazz")] "a@x.com").1.status = 200 ∧
    ∃ car', findOne (patchCarsId dbA oidA [("carName", JsVal.str "Jazz")] "a@x.com").2.cars
        (matchId oidA) = some car' ∧
      dGet car' "status" = dGet carA "status") :=
  ⟨by decide,
   patch_preserves_status_without_status_key dbA oidA [("carName", JsVal.str "Jazz")]
     "a@x.com" carA (by decide) (by decide) (by decide) (by decide)⟩

/-- C4: every successful DELETE /booking/:id removes exactly the caller's
matched booking and unconditionally writes the referenced listing's status
back to Available: when the listing still exists its status becomes
Available, when it no longer exists the write is a silent no-op, and in
both cases the call reports success (200). -/
theorem cancelBooking_removes_and_restores (db : DB) (bookingId userEmail : String)
    (booking : Doc)
    (hvalid : isValidObjectId bookingId = true)
    (hfind : findOne db.bookings (bookingMatch bookingId userEmail) = some booking) :
    (deleteBookingId db bookingId userEmail).1.status = 200 ∧
    (∃ pre post, db.bookings = pre ++ booking :: post ∧
      (deleteBookingId db bookingId userEmail).2.bookings = pre ++ post) ∧
    (findOne db.cars (fun c => mongoEq (dGet c "_id") (dGet booking "carId")) = none →
      (deleteBookingId db bookingId userEmail).2.cars = db.cars) ∧
    (∀ c, findOne db.cars (fun c => mongoEq (dGet c "_id") (dGet booking "carId")) = some c →
      findOne (deleteBookingId db bookingId userEmail).2.cars
          (fun c => mongoEq (dGet c "_id") (dGet booking "carId")) =
        some (dSet c "status" (JsVal.str "Available"))) := by
  obtain ⟨pre, post, hdocs, hpre, hdel⟩ :=
    deleteFirst_spec_of_findOne db.bookings (bookingMatch bookingId userEmail) booking hfind
  refine ⟨?_, ⟨pre, post, hdocs, ?_⟩, ?_, ?_⟩
  · simp [deleteBookingId, objectIdOf, hvalid, hfind, hdel]
  · simp [deleteBookingId, objectIdOf, hvalid, hfind, hdel]
  · intro hnone
    simp [deleteBookingId, objectIdOf, hvalid, hfind, hdel,
      updateFirst_of_findOne_none _ _ _ hnone]
  · intro c hc
    have hqpres : (fun c => mongoEq (dGet c "_id") (dGet booking "carId"))
        (applySet c [("status", JsVal.str "Available")]) = true := by
      have := findOne_some hc
      simpa [applySet_singleton, dGet_dSet] using this
    have hfound := findOne_updateFirst db.cars
      (fun c => mongoEq (dGet c "_id") (dGet booking "carId"))
      [("status", JsVal.str "Available")] c hc hqpres
    rw [applySet_singleton] at hfound
    simpa [deleteBookingId, objectIdOf, hvalid, hfind, hdel] using hfound

/-- Witness for C4: `b@x.com` cancels their booking; the booking list
empties and the Booked listing reverts to Available, with a 200 response. -/
theorem cancelBooking_removes_and_restores_witness :
    findOne dbBooked.bookings (bookingMatch oidB "b@x.com") = some bookingA ∧
    ((deleteBookingId dbBooked oidB "b@x.com").1.status = 200 ∧
    (∃ pre post, dbBooked.bookings = pre ++ bookingA :: post ∧
      (deleteBookingId dbBooked oidB "b@x.com").2.bookings = pre ++ post) ∧
    (findOne dbBooked.cars (fun c => mongoEq (dGet c "_id") (dGet bookingA "carId")) = none →
      (deleteBookingId dbBooked oidB "b@x.com").2.cars = dbBooked.cars) ∧
    (∀ c, findOne dbBooked.cars (fun c => mongoEq (dGet c "_id") (dGet bookingA "carId")) = some c →
      findOne (deleteBookingId dbBooked oidB "b@x.com").2.cars
          (fun c => mongoEq (dGet c "_id") (dGet bookingA "carId")) =
        some (dSet c "status" (JsVal.str "Available")))) :=
  ⟨by decide,
   cancelBooking_removes_and_restores dbBooked oidB "b@x.com" bookingA
     (by decide) (by decide)⟩

/-- A booking request by `b@x.com` for the listing `carA`. -/
def bookReqB : Doc := [("userEmail", JsVal.str "b@x.com"), ("carId", JsVal.str oidA)]

/-- C1: a POST /book that passes every check (caller email matches, listing
found and Available, not self-owned) then behaves as follows.  If the
status update (run against the, possibly concurrently changed, write-time
state `db₂`) modifies a row, the call succeeds with exactly one booking
appended and the listing's status gone from Available (at check time) to
Booked; if the update reports zero modified rows, the just-inserted booking
is deleted again — bookings and cars both end unchanged, a net-zero state
change — and the call fails with the Internal (500) error.  The sequential
execution is the special case `db₂ = db₁`. -/
theorem postBook_success_or_compensation (db₁ db₂ : DB) (data : Doc) (email : String)
    (now : Nat) (cid : String) (car : Doc)
    (h1 : dGet data "userEmail" = JsVal.str email)
    (h2 : dGet data "carId" = JsVal.str cid)
    (h3 : isValidObjectId cid = true)
    (h4 : findOne db₁.cars (matchId cid) = some car)
    (h5 : jsStrictEq (dGet car "providerEmail") (JsVal.str email) = false)
    (h6 : jsStrictEq (dGet car "status") (JsVal.str "Available") = true)
    (hid : dHas data "_id" = false)
    (hfresh : ∀ b ∈ db₂.bookings, dGet b "_id" ≠ JsVal.oid (freshOid db₂.nextOid)) :
    dGet car "status" = JsVal.str "Available" ∧
    (if (updateFirst db₂.cars (matchId cid) [("status", JsVal.str "Booked")]).1.modified = 0 then
      (postBook2 db₁ db₂ data email now).1.status = 500 ∧
      (postBook2 db₁ db₂ data email now).2.bookings = db₂.bookings ∧
      (postBook2 db₁ db₂ data email now).2.cars = db₂.cars
    else
      (postBook2 db₁ db₂ data email now).1.status = 200 ∧
      (postBook2 db₁ db₂ data email now).2.bookings =
        db₂.bookings ++ [dSet (bookingToInsert data cid now) "_id" (JsVal.oid (freshOid db₂.nextOid))] ∧
      (postBook2 db₁ db₂ data email now).2.cars =
        (updateFirst db₂.cars (matchId cid) [("status", JsVal.str "Booked")]).2 ∧
      ∃ car₂, findOne (postBook2 db₁ db₂ data email now).2.cars (matchId cid) = some car₂ ∧
        dGet car₂ "status" = JsVal.str "Booked") := by
  have hemail : jsStrictEq (dGet data "userEmail") (JsVal.str email) = true := by
    rw [h1, jsStrictEq_str]
    simp
  have hred : postBook2 db₁ db₂ data email now = postBookCommit db₂ data cid now := by
    simp [postBook2, hemail, h2, objectIdOf, h3, h4, h5, h6]
  have hbIid : dHas (bookingToInsert data cid now) "_id" = false := by
    simp [bookingToInsert, dHas_dSet, hid]
  have hins : insertOne db₂.bookings (bookingToInsert data cid now) db₂.nextOid =
      (JsVal.oid (freshOid db₂.nextOid),
       db₂.bookings ++
         [dSet (bookingToInsert data cid now) "_id" (JsVal.oid (freshOid db₂.nextOid))]) := by
    simp [insertOne, hbIid, dGet_dSet]
  refine ⟨jsStrictEq_eq_of_true _ _ h6, ?_⟩
  by_cases hmod : (updateFirst db₂.cars (matchId cid) [("status", JsVal.str "Booked")]).1.modified = 0
  · rw [if_pos hmod]
    have hcars := updateFirst_modified_zero db₂.cars (matchId cid) [("status", JsVal.str "Booked")] hmod
    have hdel : deleteFirst
        (db₂.bookings ++
          [dSet (bookingToInsert data cid now) "_id" (JsVal.oid (freshOid db₂.nextOid))])
        (fun b => mongoEq (dGet b "_id") (JsVal.oid (freshOid db₂.nextOid))) = (1, db₂.bookings) := by
      apply deleteFirst_append_singleton
      · intro b hb
        simp [mongoEq, hfresh b hb]
      · simp [mongoEq, dGet_dSet]
    refine ⟨?_, ?_, ?_⟩ <;> simp [hred, postBookCommit, hins, hmod, hdel, hcars]
  · rw [if_neg hmod]
    obtain ⟨d, hd⟩ :=
      updateFirst_modified_ne_zero db₂.cars (matchId cid) [("status", JsVal.str "Booked")] hmod
    have hqpres : matchId cid (applySet d [("status", JsVal.str "Booked")]) = true := by
      have := findOne_some hd
      simpa [matchId, applySet_singleton, dGet_dSet] using this
    have hfound :=
      findOne_updateFirst db₂.cars (matchId cid) [("status", JsVal.str "Booked")] d hd hqpres
    refine ⟨?_, ?_, ?_, applySet d [("status", JsVal.str "Booked")], ?_, ?_⟩
    · simp [hred, postBookCommit, hins, hmod]
    · simp [hred, postBookCommit, hins, hmod]
    · simp [hred, postBookCommit, hins, hmod]
    · simpa [hred, postBookCommit, hins, hmod] using hfound
    · simp [applySet_singleton, dGet_dSet]

/-- Witness for C1, exercising the compensation branch: the checks read the
snapshot `dbA` (listing Available) but the listing is gone from the
write-time state `dbEmpty`, so the status update modifies zero rows, the
inserted booking is deleted again and the call fails with 500. -/
theorem postBook_success_or_compensation_witness :
    (findOne dbA.cars (matchId oidA) = some carA ∧
     ∀ b ∈ dbEmpty.bookings, dGet b "_id" ≠ JsVal.oid (freshOid dbEmpty.nextOid)) ∧
    (dGet carA "status" = JsVal.str "Available" ∧
    (if (updateFirst dbEmpty.cars (matchId oidA) [("status", JsVal.str "Booked")]).1.modified = 0 then
      (postBook2 dbA dbEmpty bookReqB "b@x.com" 9).1.status = 500 ∧
      (postBook2 dbA dbEmpty bookReqB "b@x.com" 9).2.bookings = dbEmpty.bookings ∧
      (postBook2 dbA dbEmpty bookReqB "b@x.com" 9).2.cars = dbEmpty.cars
    else
      (postBook2 dbA dbEmpty bookReqB "b@x.com" 9).1.status = 200 ∧
      (postBook2 dbA dbEmpty bookReqB "b@x.com" 9).2.bookings =
        dbEmpty.bookings ++
          [dSet (bookingToInsert bookReqB oidA 9) "_id" (JsVal.oid (freshOid dbEmpty.nextOid))] ∧
      (postBook2 dbA dbEmpty bookReqB "b@x.com" 9).2.cars =
        (updateFirst dbEmpty.cars (matchId oidA) [("status", JsVal.str "Booked")]).2 ∧
      ∃ car₂, findOne (postBook2 dbA dbEmpty bookReqB "b@x.com" 9).2.cars (matchId oidA) =
          some car₂ ∧
        dGet car₂ "status" = JsVal.str "Booked")) :=
  ⟨⟨by decide, by decide⟩,
   postBook_success_or_compensation dbA dbEmpty bookReqB "b@x.com" 9 oidA carA
     (by decide) (by decide) (by decide) (by decide) (by decide) (by decide) (by decide)
     (by decide)⟩

end CarShop
